import Mathlib

/-!
Verification of the match orchestrator `simulate_game` in
`competitive_sudoku/experiment.py`, shallowly embedded in Lean 4.

The turn body (lines 66-118 of the source) is embedded as the pure function
`playTurn`; the surrounding `while move_number < number_of_moves` loop and the
final winner computation (lines 65, 121-130) as `gameLoop` / `simulate_game`.
The external oracle is a black box: its textual response is embedded as a
record of the pattern-match results the code actually inspects (`'Invalid
move' in output`, `'Illegal move' in output`, `'has no solution' in output`,
`'The score is' in output`, and the result of the score regex search).
The agents are black boxes as well: a match is driven by the list of
(committed best move, oracle response) pairs, one per turn.
-/

namespace CompetitiveSudoku

/-- Modelled from the spec: `Move` (class in `competitive_sudoku/sudoku.py`,
not in the sources): a (row, column, value) triple with structural equality. -/
structure Move where
  i : Nat
  j : Nat
  value : Nat

deriving instance DecidableEq for Move

/-- A history entry of `game_state.moves`: the Python code appends either a
`Move` object (line 110) or a `TabooMove` object (line 103) to the same list;
the two classes are kept apart by a tag. -/
inductive HistEntry where
  | move (m : Move)
  | taboo (m : Move)

deriving instance DecidableEq for HistEntry

/-- Modelled from the spec: `SudokuBoard` (class in
`competitive_sudoku/sudoku.py`, not in the sources): an N by N grid of cells
stored flat, each cell either empty or holding a value, with a
coordinate-to-flat-index conversion `rc2f`. -/
structure SudokuBoard where
  N : Nat
  squares : List Nat

deriving instance DecidableEq for SudokuBoard

/-- Modelled from the spec: the empty-cell marker `SudokuBoard.empty`. -/
def SudokuBoard.empty : Nat := 0

/-- Modelled from the spec: row/column to flat index conversion. -/
def SudokuBoard.rc2f (b : SudokuBoard) (i j : Nat) : Nat := i * b.N + j

/-- Modelled from the spec: `board.put(i, j, value)` writes a value into a
cell, the only board mutation. -/
def SudokuBoard.put (b : SudokuBoard) (i j v : Nat) : SudokuBoard :=
  { b with squares := b.squares.set (b.rc2f i j) v }

/-- Modelled from the spec: `GameState` (class in
`competitive_sudoku/sudoku.py`, not in the sources): the initial board, the
current board, the ordered move history, the ordered taboo-move history and
the two cumulative scores, as constructed at line 49 of `experiment.py`. -/
structure GameState where
  initial_board : SudokuBoard
  board : SudokuBoard
  moves : List HistEntry
  taboo_moves : List Move
  scores : Int × Int

deriving instance DecidableEq for GameState

/-- The oracle response, embedded as the results of the pattern matches the
code performs on the response text: the four substring tests and the result
of the score regular-expression search (`none` when the search fails). -/
structure OracleOutput where
  hasInvalid : Bool
  hasIllegal : Bool
  hasNoSolution : Bool
  hasScoreIs : Bool
  scoreMatch : Option Int

deriving instance DecidableEq for OracleOutput

/-- Outcome of one iteration of the turn loop: an early `return` with scores
and winner (forfeiture), a raised `RuntimeError`, or the next game state
together with the flag telling whether `move_number` was incremented. -/
inductive TurnOutcome where
  | forfeit (scores : Int × Int) (winner : Nat)
  | err
  | next (gs : GameState) (scored : Bool)

deriving instance DecidableEq for TurnOutcome

/-- Line 66: the acting player is recovered from the parity of the length of
the accepted-move history. -/
def activePlayer (gs : GameState) : Nat :=
  if gs.moves.length % 2 == 0 then 1 else 2

/-- Lines 103-104: the proposed move is appended, as a taboo move, to both
the move history and the taboo-move history. -/
def appendTabooRecord (gs : GameState) (bm : Move) : GameState :=
  { gs with moves := gs.moves ++ [HistEntry.taboo bm],
            taboo_moves := gs.taboo_moves ++ [bm] }

/-- Lines 109-110: the board cell is written and the move is appended to the
move history. -/
def applyScoredMove (gs : GameState) (bm : Move) : GameState :=
  { gs with board := gs.board.put bm.i bm.j bm.value,
            moves := gs.moves ++ [HistEntry.move bm] }

/-- Line 118: `game_state.scores[player_number-1] += player_score`. -/
def addScore (gs : GameState) (pn : Nat) (ps : Int) : GameState :=
  { gs with scores :=
      if pn = 1 then (gs.scores.1 + ps, gs.scores.2)
      else (gs.scores.1, gs.scores.2 + ps) }

/-- Lines 66-118: one iteration of the turn loop, given the best move the
agent committed and the oracle response for this turn. -/
def playTurn (gs : GameState) (bm : Move) (out : OracleOutput) : TurnOutcome :=
  if bm ≠ Move.mk 0 0 0 then
    if bm ∈ gs.taboo_moves then
      TurnOutcome.forfeit gs.scores (3 - activePlayer gs)
    else if out.hasInvalid then
      TurnOutcome.forfeit gs.scores (3 - activePlayer gs)
    else if out.hasIllegal then
      TurnOutcome.forfeit gs.scores (3 - activePlayer gs)
    else
      if out.hasScoreIs then
        match out.scoreMatch with
        | some pts =>
            TurnOutcome.next (addScore (applyScoredMove
              (if out.hasNoSolution then appendTabooRecord gs bm else gs) bm)
              (activePlayer gs) pts) true
        | none => TurnOutcome.err
      else
        TurnOutcome.next (addScore
          (if out.hasNoSolution then appendTabooRecord gs bm else gs)
          (activePlayer gs) 0) false
  else
    TurnOutcome.forfeit gs.scores (3 - activePlayer gs)

/-- Result of a whole match: normal termination (lines 121-130), an early
forfeiture return, a raised `RuntimeError`, or `pending` when the supplied
list of per-turn inputs ran out before the loop ended. -/
inductive GameResult where
  | done (scores : Int × Int) (winner : Nat)
  | forfeited (scores : Int × Int) (winner : Nat)
  | raisedError
  | pending (gs : GameState) (move_number : Nat)

deriving instance DecidableEq for GameResult

/-- Lines 121-129: the winner on normal termination. -/
def winnerOf (sc : Int × Int) : Nat :=
  if sc.1 > sc.2 then 1 else if sc.1 = sc.2 then 0 else 2

/-- The `while move_number < number_of_moves` loop (lines 65-118) followed by
the terminal winner computation (lines 121-130), driven by the list of
per-turn inputs. -/
def gameLoop (nm : Nat) (gs : GameState) (mn : Nat)
    (inputs : List (Move × OracleOutput)) : GameResult :=
  if mn < nm then
    match inputs with
    | [] => GameResult.pending gs mn
    | (bm, out) :: rest =>
      match playTurn gs bm out with
      | TurnOutcome.forfeit sc w => GameResult.forfeited sc w
      | TurnOutcome.err => GameResult.raisedError
      | TurnOutcome.next gs2 scored =>
          gameLoop nm gs2 (if scored then mn + 1 else mn) rest
  else
    GameResult.done gs.scores (winnerOf gs.scores)

/-- Line 51: `number_of_moves` is the count of initially empty cells. -/
def numberOfMoves (b : SudokuBoard) : Nat :=
  b.squares.count SudokuBoard.empty

/-- Line 49: the initial game state. -/
def initGameState (b : SudokuBoard) : GameState :=
  { initial_board := b, board := b, moves := [], taboo_moves := [],
    scores := (0, 0) }

/-- Lines 37-130: a whole match from an initial board, driven by per-turn
inputs. -/
def simulate_game (initial_board : SudokuBoard)
    (inputs : List (Move × OracleOutput)) : GameResult :=
  gameLoop (numberOfMoves initial_board) (initGameState initial_board) 0 inputs

/-- The number of scored (move_number-incrementing) turns the loop applies
before it stops, mirroring the recursion of `gameLoop`. -/
def scoredApplied (nm : Nat) (gs : GameState) (mn : Nat)
    (inputs : List (Move × OracleOutput)) : Nat :=
  if mn < nm then
    match inputs with
    | [] => 0
    | (bm, out) :: rest =>
      match playTurn gs bm out with
      | TurnOutcome.forfeit _ _ => 0
      | TurnOutcome.err => 0
      | TurnOutcome.next gs2 scored =>
          (if scored then 1 else 0) + scoredApplied nm gs2 (if scored then mn + 1 else mn) rest
  else 0

/-- The score the oracle reported for a turn: the parsed integer when the
response carried a score line, 0 otherwise. -/
def reportedScore (out : OracleOutput) : Int :=
  if out.hasScoreIs then out.scoreMatch.getD 0 else 0

/-- The cumulative score of player `pn`. -/
def scoreOf (gs : GameState) (pn : Nat) : Int :=
  if pn = 1 then gs.scores.1 else gs.scores.2

/-! Concrete boards, states, moves and oracle responses used in witnesses and
counterexamples. -/

/-- A 4-cell board with two empty cells. -/
def cBoard : SudokuBoard := { N := 2, squares := [1, 2, 0, 0] }

/-- The fresh game state on `cBoard`. -/
def cGs : GameState := initGameState cBoard

/-- A non-sentinel proposed move. -/
def cMv : Move := { i := 1, j := 0, value := 3 }

/-- An oracle response containing only the phrase for no-solution-after-move. -/
def outTabooVerdict : OracleOutput :=
  { hasInvalid := false, hasIllegal := false, hasNoSolution := true,
    hasScoreIs := false, scoreMatch := none }

/-- An oracle response carrying a parsed score `n` and no other phrase. -/
def outScored (n : Int) : OracleOutput :=
  { hasInvalid := false, hasIllegal := false, hasNoSolution := false,
    hasScoreIs := true, scoreMatch := some n }

/-- An oracle response matching none of the expected patterns. -/
def outGarbage : OracleOutput :=
  { hasInvalid := false, hasIllegal := false, hasNoSolution := false,
    hasScoreIs := false, scoreMatch := none }

/-- An oracle response containing both the no-solution phrase and a parsed
score line. -/
def outBoth : OracleOutput :=
  { hasInvalid := false, hasIllegal := false, hasNoSolution := true,
    hasScoreIs := true, scoreMatch := some 7 }

/-- An oracle response containing the score phrase but whose score
regular-expression search failed. -/
def outBadScore : OracleOutput :=
  { hasInvalid := false, hasIllegal := false, hasNoSolution := false,
    hasScoreIs := true, scoreMatch := none }

/-- A one-cell board with a single empty cell. -/
def wBoard : SudokuBoard := { N := 1, squares := [0] }

/-- Per-turn inputs filling the single empty cell of `wBoard` for 3 points. -/
def wInputs : List (Move × OracleOutput) := [(Move.mk 0 0 5, outScored 3)]

/-- `cGs` with the proposed move `cMv` already recorded as taboo. -/
def cGsT : GameState := { cGs with taboo_moves := [cMv] }

/-! Inversion and frame lemmas about one turn. -/

/-- Characterisation of a turn that continues the loop: the move was not the
sentinel, not a recorded taboo move, the response carried neither forfeit
phrase, and the resulting state is determined by which of the two verdict
branches fired. -/
theorem playTurn_next_inv (gs gs2 : GameState) (bm : Move) (out : OracleOutput) (s : Bool)
    (h : playTurn gs bm out = TurnOutcome.next gs2 s) :
    bm ≠ Move.mk 0 0 0 ∧ bm ∉ gs.taboo_moves ∧
    out.hasInvalid = false ∧ out.hasIllegal = false ∧
    ((out.hasScoreIs = true ∧ ∃ pts, out.scoreMatch = some pts ∧ s = true ∧
        gs2 = addScore (applyScoredMove
          (if out.hasNoSolution then appendTabooRecord gs bm else gs) bm) (activePlayer gs) pts)
     ∨ (out.hasScoreIs = false ∧ s = false ∧
        gs2 = addScore (if out.hasNoSolution then appendTabooRecord gs bm else gs)
          (activePlayer gs) 0)) := by
  unfold playTurn at h
  by_cases h0 : bm = Move.mk 0 0 0
  · rw [if_neg (not_not_intro h0)] at h
    exact TurnOutcome.noConfusion h
  · rw [if_pos h0] at h
    by_cases hmem : bm ∈ gs.taboo_moves
    · rw [if_pos hmem] at h
      exact TurnOutcome.noConfusion h
    · rw [if_neg hmem] at h
      by_cases hinv : out.hasInvalid = true
      · rw [if_pos hinv] at h
        exact TurnOutcome.noConfusion h
      · rw [if_neg hinv] at h
        by_cases hill : out.hasIllegal = true
        · rw [if_pos hill] at h
          exact TurnOutcome.noConfusion h
        · rw [if_neg hill] at h
          by_cases hsc : out.hasScoreIs = true
          · rw [if_pos hsc] at h
            cases hsm : out.scoreMatch with
            | some pts =>
                rw [hsm] at h
                cases h
                exact ⟨h0, hmem, by simpa using hinv, by simpa using hill,
                  Or.inl ⟨hsc, pts, rfl, rfl, rfl⟩⟩
            | none =>
                rw [hsm] at h
                exact TurnOutcome.noConfusion h
          · rw [if_neg hsc] at h
            cases h
            exact ⟨h0, hmem, by simpa using hinv, by simpa using hill,
              Or.inr ⟨by simpa using hsc, rfl, rfl⟩⟩

/-- The acting player is always player 1 or player 2. -/
theorem activePlayer_mem (gs : GameState) : activePlayer gs = 1 ∨ activePlayer gs = 2 := by
  unfold activePlayer
  split
  · exact Or.inl rfl
  · exact Or.inr rfl

/-- Appending one entry to the move history flips the acting player. -/
theorem activePlayer_flip (gs gs2 : GameState)
    (h : gs2.moves.length = gs.moves.length + 1) :
    activePlayer gs2 ≠ activePlayer gs := by
  unfold activePlayer
  rw [h]
  rcases Nat.mod_two_eq_zero_or_one gs.moves.length with h2 | h2 <;>
    simp [h2, Nat.add_mod]

/-- `scoreOf` only looks at the score pair. -/
theorem scoreOf_congr (gs gs2 : GameState) (pn : Nat) (h : gs2.scores = gs.scores) :
    scoreOf gs2 pn = scoreOf gs pn := by
  unfold scoreOf
  rw [h]

/-- `addScore` adds the points to the addressed player. -/
theorem scoreOf_addScore_self (gs : GameState) (pn : Nat) (ps : Int)
    (h : pn = 1 ∨ pn = 2) :
    scoreOf (addScore gs pn ps) pn = scoreOf gs pn + ps := by
  rcases h with h | h <;> subst h <;> simp [scoreOf, addScore]

/-- `addScore` leaves the other player's score unchanged. -/
theorem scoreOf_addScore_other (gs : GameState) (pn : Nat) (ps : Int)
    (h : pn = 1 ∨ pn = 2) :
    scoreOf (addScore gs pn ps) (3 - pn) = scoreOf gs (3 - pn) := by
  rcases h with h | h <;> subst h <;> simp [scoreOf, addScore]

/-- `addScore` adds the points to the score sum. -/
theorem addScore_sum (gs : GameState) (pn : Nat) (ps : Int) :
    (addScore gs pn ps).scores.1 + (addScore gs pn ps).scores.2
      = gs.scores.1 + gs.scores.2 + ps := by
  unfold addScore
  split <;> simp <;> ring

/-! Theorems settling the claims. -/

/-- C2 counterexample: a concrete non-terminal turn after which the same
player acts again. The oracle response contains both the no-solution phrase
and a score line, so the turn is in particular a taboo-recording turn, yet
two entries are appended to the move history (lines 103 and 110) and
`len(moves) % 2` is unchanged: the acting player of the next turn equals the
acting player of this turn, refuting strict alternation. -/
theorem C2_counterexample :
    playTurn cGs cMv outBoth =
      TurnOutcome.next (GameState.mk cBoard (SudokuBoard.mk 2 [1, 2, 3, 0])
        [HistEntry.taboo cMv, HistEntry.move cMv] [cMv] (7, 0)) true
    ∧ activePlayer (GameState.mk cBoard (SudokuBoard.mk 2 [1, 2, 3, 0])
        [HistEntry.taboo cMv, HistEntry.move cMv] [cMv] (7, 0)) = activePlayer cGs := by
  decide

/-- C2 amended: on every non-terminal turn whose oracle response matches
exactly one of the no-solution / score verdict patterns (a taboo-recording
turn or a scored-application turn), the acting player of the next turn
differs from the acting player of this turn; a turn whose response matches
neither pattern, or both patterns, keeps the same acting player. -/
theorem C2_turn_parity_alternates (gs gs2 : GameState) (bm : Move) (out : OracleOutput) (s : Bool)
    (h1 : playTurn gs bm out = TurnOutcome.next gs2 s)
    (h2 : out.hasNoSolution ≠ out.hasScoreIs) :
    activePlayer gs2 ≠ activePlayer gs := by
  rcases playTurn_next_inv gs gs2 bm out s h1 with ⟨-, -, -, -, hc⟩
  rcases hc with ⟨hsc, pts, hsm, hs, hgs2⟩ | ⟨hsc, hs, hgs2⟩
  · have hnosol : out.hasNoSolution = false := by
      cases hn : out.hasNoSolution
      · rfl
      · rw [hn, hsc] at h2; exact absurd rfl h2
    subst hgs2
    apply activePlayer_flip
    simp [addScore, applyScoredMove, hnosol]
  · have hnosol : out.hasNoSolution = true := by
      cases hn : out.hasNoSolution
      · rw [hn, hsc] at h2; exact absurd rfl h2
      · rfl
    subst hgs2
    apply activePlayer_flip
    simp [addScore, appendTabooRecord, hnosol]

/-- C2 witness: a concrete taboo-recording turn flips the acting player. -/
theorem C2_witness :
    activePlayer (GameState.mk cBoard cBoard [HistEntry.taboo cMv] [cMv] (0, 0))
      ≠ activePlayer cGs :=
  C2_turn_parity_alternates cGs
    (GameState.mk cBoard cBoard [HistEntry.taboo cMv] [cMv] (0, 0)) cMv
    outTabooVerdict false (by decide) (by decide)

/-- C3 counterexample: on a concrete taboo-recording turn the quantity
`len(moves) + len(taboo_moves)` grows by two, not by one, because the taboo
move is appended to both lists. -/
theorem C3_counterexample :
    playTurn cGs cMv outTabooVerdict =
      TurnOutcome.next (GameState.mk cBoard cBoard [HistEntry.taboo cMv] [cMv] (0, 0)) false
    ∧ (GameState.mk cBoard cBoard [HistEntry.taboo cMv] [cMv] (0, 0)).moves.length
        + (GameState.mk cBoard cBoard [HistEntry.taboo cMv] [cMv] (0, 0)).taboo_moves.length
      ≠ cGs.moves.length + cGs.taboo_moves.length + 1 := by
  decide

/-- C3 amended: on every non-terminal turn whose oracle response matches
exactly one of the no-solution / score patterns, `len(moves) +
len(taboo_moves)` grows by exactly one on a scored-application turn and by
exactly two on a taboo-recording turn. -/
theorem C3_history_growth (gs gs2 : GameState) (bm : Move) (out : OracleOutput) (s : Bool)
    (h1 : playTurn gs bm out = TurnOutcome.next gs2 s)
    (h2 : out.hasNoSolution ≠ out.hasScoreIs) :
    gs2.moves.length + gs2.taboo_moves.length
      = gs.moves.length + gs.taboo_moves.length
        + (if out.hasNoSolution then 2 else 1) := by
  rcases playTurn_next_inv gs gs2 bm out s h1 with ⟨-, -, -, -, hc⟩
  rcases hc with ⟨hsc, pts, hsm, hs, hgs2⟩ | ⟨hsc, hs, hgs2⟩
  · have hnosol : out.hasNoSolution = false := by
      cases hn : out.hasNoSolution
      · rfl
      · rw [hn, hsc] at h2; exact absurd rfl h2
    subst hgs2
    simp [addScore, applyScoredMove, hnosol]
    omega
  · have hnosol : out.hasNoSolution = true := by
      cases hn : out.hasNoSolution
      · rw [hn, hsc] at h2; exact absurd rfl h2
      · rfl
    subst hgs2
    simp [addScore, appendTabooRecord, hnosol]
    omega

/-- C3 witness: the amended growth law at a concrete taboo-recording turn. -/
theorem C3_witness :
    (GameState.mk cBoard cBoard [HistEntry.taboo cMv] [cMv] (0, 0)).moves.length
      + (GameState.mk cBoard cBoard [HistEntry.taboo cMv] [cMv] (0, 0)).taboo_moves.length
    = cGs.moves.length + cGs.taboo_moves.length
      + (if outTabooVerdict.hasNoSolution then 2 else 1) :=
  C3_history_growth cGs
    (GameState.mk cBoard cBoard [HistEntry.taboo cMv] [cMv] (0, 0)) cMv
    outTabooVerdict false (by decide) (by decide)

/-- C4: a proposed non-sentinel move whose triple is already in the
taboo-move history ends the match at once with winner the opponent and the
scores as they were, and the outcome is the same whatever the oracle would
have answered (the history check precedes any oracle invocation). -/
theorem C4_taboo_repeat_forfeit (gs : GameState) (bm : Move)
    (h0 : bm ≠ Move.mk 0 0 0) (h1 : bm ∈ gs.taboo_moves) :
    ∀ out : OracleOutput,
      playTurn gs bm out = TurnOutcome.forfeit gs.scores (3 - activePlayer gs) := by
  intro out
  unfold playTurn
  rw [if_pos h0, if_pos h1]

/-- C4 witness: a concrete repeated taboo move forfeits at once. -/
theorem C4_witness :
    playTurn cGsT cMv outGarbage = TurnOutcome.forfeit cGsT.scores (3 - activePlayer cGsT) :=
  C4_taboo_repeat_forfeit cGsT cMv (by decide) (by decide) outGarbage

/-- C5: the sentinel best move (0, 0, 0) ends the match at once with winner
the opponent and the scores as they were, and the outcome is the same
whatever the oracle would have answered (the oracle is not invoked). -/
theorem C5_sentinel_forfeit (gs : GameState) (bm : Move)
    (h0 : bm = Move.mk 0 0 0) :
    ∀ out : OracleOutput,
      playTurn gs bm out = TurnOutcome.forfeit gs.scores (3 - activePlayer gs) := by
  intro out
  unfold playTurn
  rw [if_neg (not_not_intro h0)]

/-- C5 witness: the concrete sentinel move forfeits at once. -/
theorem C5_witness :
    playTurn cGs (Move.mk 0 0 0) outGarbage
      = TurnOutcome.forfeit cGs.scores (3 - activePlayer cGs) :=
  C5_sentinel_forfeit cGs (Move.mk 0 0 0) rfl outGarbage

/-- C6: a turn whose oracle response is the no-solution verdict (and nothing
else) appends the move to the taboo-move history, leaves the board and both
scores unchanged, flips the acting player, and does not count toward the
move budget. -/
theorem C6_taboo_verdict_frame (gs : GameState) (bm : Move) (out : OracleOutput)
    (h0 : bm ≠ Move.mk 0 0 0) (h1 : bm ∉ gs.taboo_moves)
    (h2 : out.hasInvalid = false) (h3 : out.hasIllegal = false)
    (h4 : out.hasNoSolution = true) (h5 : out.hasScoreIs = false) :
    ∃ gs2, playTurn gs bm out = TurnOutcome.next gs2 false
      ∧ gs2.taboo_moves = gs.taboo_moves ++ [bm]
      ∧ gs2.board = gs.board
      ∧ gs2.scores = gs.scores
      ∧ activePlayer gs2 ≠ activePlayer gs := by
  refine ⟨addScore (appendTabooRecord gs bm) (activePlayer gs) 0, ?_, rfl, rfl, ?_, ?_⟩
  · unfold playTurn
    rw [if_pos h0, if_neg h1]
    simp [h2, h3, h4, h5]
  · unfold addScore appendTabooRecord
    split <;> simp
  · apply activePlayer_flip
    simp [addScore, appendTabooRecord]

/-- C6 witness: the frame conditions at a concrete taboo-recording turn. -/
theorem C6_witness :
    ∃ gs2, playTurn cGs cMv outTabooVerdict = TurnOutcome.next gs2 false
      ∧ gs2.taboo_moves = cGs.taboo_moves ++ [cMv]
      ∧ gs2.board = cGs.board
      ∧ gs2.scores = cGs.scores
      ∧ activePlayer gs2 ≠ activePlayer cGs :=
  C6_taboo_verdict_frame cGs cMv outTabooVerdict (by decide) (by decide) rfl rfl rfl rfl

/-- C7 counterexample: a concrete oracle response matching none of the
expected verdict patterns does not raise any error: the turn silently
completes as a zero-effect turn with the game state unchanged. -/
theorem C7_counterexample :
    playTurn cGs cMv outGarbage = TurnOutcome.next cGs false
    ∧ playTurn cGs cMv outGarbage ≠ TurnOutcome.err := by
  decide

/-- C7 amended: a `RuntimeError` is raised, and propagated out of the turn
loop to the caller, exactly for a response that contains the score phrase but
whose score pattern search failed; a response matching none of the patterns
is instead silently treated as a zero-effect turn. -/
theorem C7_bad_score_line_raises (gs : GameState) (bm : Move) (out : OracleOutput)
    (h0 : bm ≠ Move.mk 0 0 0) (h1 : bm ∉ gs.taboo_moves)
    (h2 : out.hasInvalid = false) (h3 : out.hasIllegal = false)
    (h4 : out.hasScoreIs = true) (h5 : out.scoreMatch = none) :
    playTurn gs bm out = TurnOutcome.err
    ∧ ∀ (nm mn : Nat) (rest : List (Move × OracleOutput)), mn < nm →
        gameLoop nm gs mn ((bm, out) :: rest) = GameResult.raisedError := by
  have herr : playTurn gs bm out = TurnOutcome.err := by
    unfold playTurn
    rw [if_pos h0, if_neg h1]
    simp [h2, h3, h4, h5]
  refine ⟨herr, ?_⟩
  intro nm mn rest hlt
  unfold gameLoop
  rw [if_pos hlt]
  simp only [herr]

/-- C7 witness: concrete bad-score-line response raises and propagates. -/
theorem C7_witness :
    playTurn cGs cMv outBadScore = TurnOutcome.err
    ∧ ∀ (nm mn : Nat) (rest : List (Move × OracleOutput)), mn < nm →
        gameLoop nm cGs mn ((cMv, outBadScore) :: rest) = GameResult.raisedError :=
  C7_bad_score_line_raises cGs cMv outBadScore (by decide) (by decide) rfl rfl rfl rfl

/-- C8 counterexample: a concrete turn whose oracle reports a negative score
makes `scores[0] + scores[1]` decrease. -/
theorem C8_counterexample :
    playTurn cGs cMv (outScored (-1)) =
      TurnOutcome.next
        (GameState.mk cBoard (SudokuBoard.mk 2 [1, 2, 3, 0]) [HistEntry.move cMv] [] (-1, 0)) true
    ∧ (GameState.mk cBoard (SudokuBoard.mk 2 [1, 2, 3, 0])
          [HistEntry.move cMv] [] (-1, 0)).scores.1
        + (GameState.mk cBoard (SudokuBoard.mk 2 [1, 2, 3, 0])
            [HistEntry.move cMv] [] (-1, 0)).scores.2
      < cGs.scores.1 + cGs.scores.2 := by
  decide

/-- C8 amended: on every non-terminal turn the acting player's score changes
by exactly the oracle-reported score for that turn (0 for taboo turns) and
the other player's score is unchanged; the sum `scores[0] + scores[1]` does
not decrease whenever the reported score is nonnegative (it can decrease on a
negative reported score). -/
theorem C8_score_delta (gs gs2 : GameState) (bm : Move) (out : OracleOutput) (s : Bool)
    (h : playTurn gs bm out = TurnOutcome.next gs2 s) :
    scoreOf gs2 (activePlayer gs) = scoreOf gs (activePlayer gs) + reportedScore out
    ∧ scoreOf gs2 (3 - activePlayer gs) = scoreOf gs (3 - activePlayer gs)
    ∧ (0 ≤ reportedScore out →
        gs.scores.1 + gs.scores.2 ≤ gs2.scores.1 + gs2.scores.2) := by
  have hap := activePlayer_mem gs
  rcases playTurn_next_inv gs gs2 bm out s h with ⟨-, -, -, -, hc⟩
  rcases hc with ⟨hsc, pts, hsm, hs, hgs2⟩ | ⟨hsc, hs, hgs2⟩
  · have hrep : reportedScore out = pts := by
      simp [reportedScore, hsc, hsm]
    subst hgs2
    rw [hrep]
    have hsceq : (applyScoredMove
        (if out.hasNoSolution = true then appendTabooRecord gs bm else gs) bm).scores
        = gs.scores := by
      unfold applyScoredMove appendTabooRecord
      split <;> rfl
    refine ⟨?_, ?_, ?_⟩
    · rw [scoreOf_addScore_self _ _ _ hap, scoreOf_congr gs _ _ hsceq]
    · rw [scoreOf_addScore_other _ _ _ hap, scoreOf_congr gs _ _ hsceq]
    · intro hpos
      rw [addScore_sum, hsceq]
      omega
  · have hrep : reportedScore out = 0 := by
      simp [reportedScore, hsc]
    subst hgs2
    rw [hrep]
    have hsceq : (if out.hasNoSolution = true then appendTabooRecord gs bm else gs).scores
        = gs.scores := by
      unfold appendTabooRecord
      split <;> rfl
    refine ⟨?_, ?_, ?_⟩
    · rw [scoreOf_addScore_self _ _ _ hap, scoreOf_congr gs _ _ hsceq]
    · rw [scoreOf_addScore_other _ _ _ hap, scoreOf_congr gs _ _ hsceq]
    · intro hpos
      rw [addScore_sum, hsceq]
      omega

/-- C8 witness: the amended per-turn score law at a concrete scored turn. -/
theorem C8_witness :
    scoreOf (GameState.mk cBoard (SudokuBoard.mk 2 [1, 2, 3, 0])
        [HistEntry.move cMv] [] (5, 0)) (activePlayer cGs)
      = scoreOf cGs (activePlayer cGs) + reportedScore (outScored 5)
    ∧ scoreOf (GameState.mk cBoard (SudokuBoard.mk 2 [1, 2, 3, 0])
        [HistEntry.move cMv] [] (5, 0)) (3 - activePlayer cGs)
      = scoreOf cGs (3 - activePlayer cGs)
    ∧ (0 ≤ reportedScore (outScored 5) →
        cGs.scores.1 + cGs.scores.2
          ≤ (GameState.mk cBoard (SudokuBoard.mk 2 [1, 2, 3, 0])
              [HistEntry.move cMv] [] (5, 0)).scores.1
            + (GameState.mk cBoard (SudokuBoard.mk 2 [1, 2, 3, 0])
                [HistEntry.move cMv] [] (5, 0)).scores.2) :=
  C8_score_delta cGs
    (GameState.mk cBoard (SudokuBoard.mk 2 [1, 2, 3, 0]) [HistEntry.move cMv] [] (5, 0))
    cMv (outScored 5) true (by decide)

/-- C9: when the oracle response contains both the no-solution phrase and a
parsed score line, the single turn executes both verdict branches: the move
is appended to the taboo-move history, the move history receives two entries
(the taboo record, then the accepted move), the board is mutated by placing
the value, and the acting player's score increases by the parsed points. -/
theorem C9_both_branches (gs : GameState) (bm : Move) (out : OracleOutput) (pts : Int)
    (h0 : bm ≠ Move.mk 0 0 0) (h1 : bm ∉ gs.taboo_moves)
    (h2 : out.hasInvalid = false) (h3 : out.hasIllegal = false)
    (h4 : out.hasNoSolution = true) (h5 : out.hasScoreIs = true)
    (h6 : out.scoreMatch = some pts) :
    ∃ gs2, playTurn gs bm out = TurnOutcome.next gs2 true
      ∧ gs2.taboo_moves = gs.taboo_moves ++ [bm]
      ∧ gs2.moves = gs.moves ++ [HistEntry.taboo bm, HistEntry.move bm]
      ∧ gs2.board = gs.board.put bm.i bm.j bm.value
      ∧ scoreOf gs2 (activePlayer gs) = scoreOf gs (activePlayer gs) + pts := by
  refine ⟨addScore (applyScoredMove (appendTabooRecord gs bm) bm) (activePlayer gs) pts,
    ?_, rfl, ?_, rfl, ?_⟩
  · unfold playTurn
    rw [if_pos h0, if_neg h1]
    simp [h2, h3, h4, h5, h6]
  · simp [addScore, applyScoredMove, appendTabooRecord]
  · have hsceq : (applyScoredMove (appendTabooRecord gs bm) bm).scores = gs.scores := rfl
    rw [scoreOf_addScore_self _ _ _ (activePlayer_mem gs), scoreOf_congr gs _ _ hsceq]

/-- C9 witness: the double-branch turn at a concrete both-phrases response. -/
theorem C9_witness :
    ∃ gs2, playTurn cGs cMv outBoth = TurnOutcome.next gs2 true
      ∧ gs2.taboo_moves = cGs.taboo_moves ++ [cMv]
      ∧ gs2.moves = cGs.moves ++ [HistEntry.taboo cMv, HistEntry.move cMv]
      ∧ gs2.board = cGs.board.put cMv.i cMv.j cMv.value
      ∧ scoreOf gs2 (activePlayer cGs) = scoreOf cGs (activePlayer cGs) + 7 :=
  C9_both_branches cGs cMv outBoth 7 (by decide) (by decide) rfl rfl rfl rfl rfl

/-- When the loop reaches normal termination, the scored turns it applied
make `move_number` count up from its starting value exactly to the budget. -/
theorem gameLoop_done_scored (nm : Nat) :
    ∀ (inputs : List (Move × OracleOutput)) (gs : GameState) (mn : Nat)
      (sc : Int × Int) (w : Nat),
      mn ≤ nm → gameLoop nm gs mn inputs = GameResult.done sc w →
      mn + scoredApplied nm gs mn inputs = nm := by
  intro inputs
  induction inputs with
  | nil =>
    intro gs mn sc w hle h
    unfold gameLoop at h
    by_cases hlt : mn < nm
    · rw [if_pos hlt] at h
      exact GameResult.noConfusion h
    · unfold scoredApplied
      rw [if_neg hlt]
      omega
  | cons p rest ih =>
    intro gs mn sc w hle h
    obtain ⟨bm, out⟩ := p
    unfold gameLoop at h
    by_cases hlt : mn < nm
    · rw [if_pos hlt] at h
      cases hpt : playTurn gs bm out with
      | forfeit sc2 w2 =>
          simp only [hpt] at h
          exact GameResult.noConfusion h
      | err =>
          simp only [hpt] at h
          exact GameResult.noConfusion h
      | next gs2 scored =>
          simp only [hpt] at h
          have hle2 : (if scored then mn + 1 else mn) ≤ nm := by
            cases scored
            · simpa using hle
            · simpa using hlt
          have hrec := ih gs2 (if scored then mn + 1 else mn) sc w hle2 h
          unfold scoredApplied
          rw [if_pos hlt]
          simp only [hpt]
          cases scored <;> simp at hrec ⊢ <;> omega
    · unfold scoredApplied
      rw [if_neg hlt]
      omega


/-- When the loop reaches normal termination, the winner is computed from
the final scores by the terminal comparison. -/
theorem gameLoop_done_winner (nm : Nat) :
    ∀ (inputs : List (Move × OracleOutput)) (gs : GameState) (mn : Nat)
      (sc : Int × Int) (w : Nat),
      gameLoop nm gs mn inputs = GameResult.done sc w → w = winnerOf sc := by
  intro inputs
  induction inputs with
  | nil =>
    intro gs mn sc w h
    unfold gameLoop at h
    by_cases hlt : mn < nm
    · rw [if_pos hlt] at h
      exact GameResult.noConfusion h
    · rw [if_neg hlt] at h
      cases h
      rfl
  | cons p rest ih =>
    intro gs mn sc w h
    obtain ⟨bm, out⟩ := p
    unfold gameLoop at h
    by_cases hlt : mn < nm
    · rw [if_pos hlt] at h
      cases hpt : playTurn gs bm out with
      | forfeit sc2 w2 =>
          simp only [hpt] at h
          exact GameResult.noConfusion h
      | err =>
          simp only [hpt] at h
          exact GameResult.noConfusion h
      | next gs2 scored =>
          simp only [hpt] at h
          exact ih gs2 (if scored then mn + 1 else mn) sc w h
    · rw [if_neg hlt] at h
      cases h
      rfl

/-- C1: a match that reaches normal termination (not forfeiture, not a
raised error) has applied exactly as many scored (board-mutating) moves as
the initial board had empty cells - taboo-recording turns not counting - and
its winner is 1 when player 1 scored more, 0 on equal scores, and 2 when
player 2 scored more. -/
theorem C1_normal_termination (init : SudokuBoard) (inputs : List (Move × OracleOutput))
    (sc : Int × Int) (w : Nat)
    (h : simulate_game init inputs = GameResult.done sc w) :
    scoredApplied (numberOfMoves init) (initGameState init) 0 inputs = numberOfMoves init
    ∧ (sc.1 > sc.2 → w = 1) ∧ (sc.1 = sc.2 → w = 0) ∧ (sc.1 < sc.2 → w = 2) := by
  unfold simulate_game at h
  have h1 := gameLoop_done_scored (numberOfMoves init) inputs (initGameState init) 0 sc w
    (Nat.zero_le _) h
  have h2 := gameLoop_done_winner (numberOfMoves init) inputs (initGameState init) 0 sc w h
  subst h2
  refine ⟨by omega, ?_, ?_, ?_⟩ <;> intro hcmp <;> unfold winnerOf
  · rw [if_pos hcmp]
  · rw [if_neg (by omega), if_pos hcmp]
  · rw [if_neg (by omega), if_neg (by omega)]

/-- C1 witness: a one-empty-cell board filled by one scored move of 3
points terminates normally with one scored move applied and winner 1. -/
theorem C1_witness :
    scoredApplied (numberOfMoves wBoard) (initGameState wBoard) 0 wInputs = numberOfMoves wBoard
    ∧ ((3 : Int) > (0 : Int) → 1 = 1) ∧ ((3 : Int) = (0 : Int) → 1 = 0)
    ∧ ((3 : Int) < (0 : Int) → 1 = 2) :=
  C1_normal_termination wBoard wInputs (3, 0) 1 (by decide)

/-- The observable per-turn actions of the orchestrator around the isolated
agent process (lines 72-80): start the process, sleep for the calculation
time, acquire the shared lock, forcibly terminate the process, release the
lock, and only then read the committed best-move triple. -/
inductive TurnEvent where
  | startProcess
  | sleepDeadline
  | lockAcquire
  | terminateProcess
  | lockRelease
  | readBestMove

deriving instance DecidableEq for TurnEvent

/-- Lines 72-80 in program order: `process.start()`, `time.sleep(...)`,
`lock.acquire()`, `process.terminate()`, `lock.release()`, then the read
`i, j, value = player.best_move`. -/
def turnEventSequence : List TurnEvent :=
  [TurnEvent.startProcess, TurnEvent.sleepDeadline, TurnEvent.lockAcquire,
   TurnEvent.terminateProcess, TurnEvent.lockRelease, TurnEvent.readBestMove]

/-- The lock is held continuously across the forced termination and the
subsequent read of the best move: some acquire precedes the termination, the
termination precedes the read, and no release occurs strictly between that
acquire and the read. -/
def lockHeldAcrossTerminateAndRead (evs : List TurnEvent) : Prop :=
  ∃ ia : Fin evs.length, ∃ it : Fin evs.length, ∃ ird : Fin evs.length,
    evs.get ia = TurnEvent.lockAcquire ∧
    evs.get it = TurnEvent.terminateProcess ∧
    evs.get ird = TurnEvent.readBestMove ∧
    ia < it ∧ it < ird ∧
    ∀ k : Fin evs.length, ia < k → k < ird → evs.get k ≠ TurnEvent.lockRelease

/-- C10 counterexample: in the orchestrator's actual per-turn event order the
lock is NOT held across the forced-termination-then-read sequence: the lock
is released (line 77) before the best move is read (line 80). -/
theorem C10_counterexample : ¬ lockHeldAcrossTerminateAndRead turnEventSequence := by
  unfold lockHeldAcrossTerminateAndRead turnEventSequence
  decide

/-- C10 amended: the lock is held across the forced termination only: the
acquire precedes the termination and the release follows it, and the read of
the committed best-move triple happens strictly after the release, outside
the lock. -/
theorem C10_lock_scope :
    turnEventSequence.indexOf TurnEvent.lockAcquire
      < turnEventSequence.indexOf TurnEvent.terminateProcess
    ∧ turnEventSequence.indexOf TurnEvent.terminateProcess
      < turnEventSequence.indexOf TurnEvent.lockRelease
    ∧ turnEventSequence.indexOf TurnEvent.lockRelease
      < turnEventSequence.indexOf TurnEvent.readBestMove := by
  decide

end CompetitiveSudoku
